import Mathlib

/-!
Shallow embedding of the event-decoding and case-mapping pipeline of the
repository (files processmining.py and streamlit_process_mining.py).

External collaborators (the web3 keccak hash, the eth_abi decoder, the
web3 get_event_data helper, the block-timestamp RPC lookup) are taken as
function parameters; everything else is translated directly from the
Python source.  Python exceptions are modelled with Except, Python
dictionaries with structures, and byte strings with List Nat.
-/

/-- A decoded argument value: address string, integer, string, or raw
bytes, matching the value kinds the two decoders can produce. -/
inductive Value where
  | addr (s : String)
  | int (n : Int)
  | str (s : String)
  | bytes (b : List Nat)
deriving DecidableEq, Repr

/-- One entry of the "inputs" list of an ABI event: a name, a solidity type
string, and the indexed flag. -/
structure AbiInput where
  name : String
  type : String
  indexed : Bool
deriving DecidableEq, Repr

/-- An ABI event definition: name plus ordered input declarations. -/
structure AbiEvent where
  name : String
  inputs : List AbiInput
deriving DecidableEq, Repr

/-- A raw on-chain log entry as returned by eth_getLogs: emitting
address, topic list (each topic a 32-byte word, modelled as a byte
list), data payload bytes and block number. -/
structure RawLog where
  address : String
  topics : List (List Nat)
  data : List Nat
  blockNumber : Nat
deriving DecidableEq, Repr

/-- The dictionary both decoders return on success: event name, decoded
argument values, and the parallel argument-name list. -/
structure DecodedEvent where
  event_name : String
  args : List Value
  arg_names : List String
deriving DecidableEq, Repr

/-- One row of the event-log table: the case id / activity / timestamp
triple appended by both main loops.  datetime.fromtimestamp is modelled
by keeping the epoch-seconds integer. -/
structure CaseRecord where
  case_id : Value
  activity : Value
  timestamp : Int
deriving DecidableEq, Repr

/-- The Python exceptions the pipeline can raise: IndexError from a
too-short topic or argument list, and a decoding error escaping
eth_abi.decode. -/
inductive PyError where
  | indexError
  | decodingError (msg : String)
deriving DecidableEq, Repr

/-- Lower-case hex digit for a value below 16 (48 is the code of the
digit zero, 87 + 10 that of the letter a). -/
def hexDigitChar (n : Nat) : Char :=
  if n < 10 then Char.ofNat (48 + n) else Char.ofNat (87 + n)

/-- Two-character lower-case hex rendering of one byte. -/
def byteToHex (b : Nat) : String :=
  String.mk [hexDigitChar (b / 16 % 16), hexDigitChar (b % 16)]

/-- Hex rendering of a byte string, as HexBytes.hex() produces minus the
0x prefix. -/
def bytesToHex (bs : List Nat) : String :=
  String.join (bs.map byteToHex)

/-- The string topic.hex() returns for a topic word: 0x-prefixed
lower-case hex of its bytes. -/
def topicHexStr (t : List Nat) : String :=
  "0x" ++ bytesToHex t

/-- The integer int(topic.hex(), 16) parses back from the rendered hex:
the big-endian value of the topic bytes. -/
def topicNat (t : List Nat) : Nat :=
  t.foldl (fun acc b => acc * 256 + b % 256) 0

/-- Python string slicing s[-n:]: the last n characters (the whole
string when it is shorter than n). -/
def strTakeRight (s : String) (n : Nat) : String :=
  String.mk (s.data.drop (s.data.length - n))

/-- The signature string built at processmining.py line 73:
name(type1,type2,...). -/
def eventSignature (e : AbiEvent) : String :=
  e.name ++ "(" ++ String.intercalate "," (e.inputs.map (fun i => i.type)) ++ ")"

/-- The indexed-input decoding loop of processmining.py lines 81-88:
walk the indexed inputs, reading topics starting at index 1; an address
type takes 0x plus the last 40 hex characters of the topic, any other
type the integer value of the topic; a missing topic raises IndexError. -/
def decodeIndexedLoop (topics : List (List Nat)) : List AbiInput → Nat → Except PyError (List Value)
  | [], _ => .ok []
  | inp :: rest, topicIndex =>
    match topics[topicIndex]? with
    | none => .error .indexError
    | some t =>
      let v : Value :=
        if inp.type == "address" then .addr ("0x" ++ strTakeRight (topicHexStr t) 40)
        else .int (Int.ofNat (topicNat t))
      match decodeIndexedLoop topics rest (topicIndex + 1) with
      | .error e => .error e
      | .ok vs => .ok (v :: vs)

/-- decode_log of processmining.py (lines 69-104): try each ABI event;
on a signature-hash match decode indexed inputs from the topics and
non-indexed inputs from the data via eth_abi.decode (the ethDecode
parameter), returning indexed-decoded values followed by
non-indexed-decoded values with arg_names taken from the inputs in
declaration order.  There is no try/except in this function: any
exception from topic access or from eth_abi.decode propagates. -/
def decode_log (keccak : String → String)
    (ethDecode : List String → List Nat → Except String (List Value))
    (log : RawLog) : List AbiEvent → Except PyError (Option DecodedEvent)
  | [] => .ok none
  | abiEvent :: rest =>
    match log.topics[0]? with
    | none => .error .indexError
    | some t0 =>
      if topicHexStr t0 == keccak (eventSignature abiEvent) then
        let indexedInputs := abiEvent.inputs.filter (fun i => i.indexed)
        let nonIndexedInputs := abiEvent.inputs.filter (fun i => !i.indexed)
        match decodeIndexedLoop log.topics indexedInputs 1 with
        | .error e => .error e
        | .ok decodedIndexed =>
          match (if nonIndexedInputs.isEmpty then Except.ok [] else
                  match ethDecode (nonIndexedInputs.map (fun i => i.type)) log.data with
                  | .ok vs => Except.ok vs
                  | .error m => Except.error (PyError.decodingError m)) with
          | .error e => .error e
          | .ok decodedNonIndexed =>
            .ok (some { event_name := abiEvent.name,
                        args := decodedIndexed ++ decodedNonIndexed,
                        arg_names := abiEvent.inputs.map (fun i => i.name) })
      else decode_log keccak ethDecode log rest

/-- decode_log of streamlit_process_mining.py (lines 56-74): try
the web3 helper get_event_data on each ABI event inside try/except; any
exception is swallowed and the loop continues with the next candidate;
a truthy result is returned, a falsy one also falls through to the next
candidate.  The function itself never raises. -/
def decode_log_st (getEventData : AbiEvent → RawLog → Except String (Option DecodedEvent))
    (log : RawLog) : List AbiEvent → Option DecodedEvent
  | [] => none
  | abiEvent :: rest =>
    match getEventData abiEvent log with
    | .ok (some d) => some d
    | .ok none => decode_log_st getEventData log rest
    | .error _ => decode_log_st getEventData log rest

/-- The parsed JSON body of a block-explorer getabi response: its
"status" and "result" fields.  The HTTP call and JSON parsing belong to
the external requests library. -/
structure ApiResponse where
  status : String
  result : String
deriving DecidableEq, Repr

/-- get_contract_abi of processmining.py lines 37-52 and
streamlit_process_mining.py lines 27-41 (identical response handling):
return the result field when status is the string 1, else None. -/
def get_contract_abi (response : ApiResponse) : Option String :=
  if response.status == "1" then some response.result else none

/-- One of the three override blocks of the processmining.py main loop
(lines 168-181): if the key occurs in arg_names, look the value up at
arg_names.index(key) in args (an out-of-range position raises
IndexError, as args[i] would); otherwise keep the default. -/
def argLookup (argNames : List String) (args : List Value) (key : String)
    (dflt : Value) : Except PyError Value :=
  if argNames.contains key then
    match args[argNames.indexOf key]? with
    | some v => .ok v
    | none => .error .indexError
  else .ok dflt

/-- The decoded branch of the processmining.py main loop (lines
151-187): defaults are the analyzed contract address, the event name
and the block timestamp; an argument named user overrides case id, one
named step overrides activity, one named timestamp overrides the
timestamp only when its value is an integer. -/
def pm_map_decoded (contractAddress : String) (blockTs : Int)
    (d : DecodedEvent) : Except PyError CaseRecord :=
  match argLookup d.arg_names d.args "user" (.str contractAddress) with
  | .error e => .error e
  | .ok caseId =>
    match argLookup d.arg_names d.args "step" (.str d.event_name) with
    | .error e => .error e
    | .ok activity =>
      match argLookup d.arg_names d.args "timestamp" (.int blockTs) with
      | .error e => .error e
      | .ok tsv =>
        .ok { case_id := caseId, activity := activity,
              timestamp := match tsv with | .int n => n | _ => blockTs }

/-- One iteration of the processmining.py main loop (lines 134-187):
decode only when abi_events is non-empty; with no decoded event append
the fallback row (log address, hex of the first topic, block
timestamp — accessing topics[0] raises IndexError when the topic list
is empty); with a decoded event apply the name-matching heuristic. -/
def pm_process_log (keccak : String → String)
    (ethDecode : List String → List Nat → Except String (List Value))
    (blockTsOf : Nat → Int) (contractAddress : String)
    (abiEvents : List AbiEvent) (log : RawLog) : Except PyError CaseRecord :=
  match (if abiEvents.isEmpty then Except.ok none
         else decode_log keccak ethDecode log abiEvents) with
  | .error e => .error e
  | .ok none =>
    match log.topics[0]? with
    | none => .error .indexError
    | some t0 =>
      .ok { case_id := .str log.address, activity := .str (topicHexStr t0),
            timestamp := blockTsOf log.blockNumber }
  | .ok (some d) => pm_map_decoded contractAddress (blockTsOf log.blockNumber) d

/-- One iteration of the analyze_contract loop of
streamlit_process_mining.py (lines 106-121): defaults are the log
address, the hex of the first topic (raising IndexError on an empty
topic list) and the block timestamp; when decoding succeeded, case id
becomes the first decoded argument (raising IndexError when there are
no arguments) and activity the event name; the timestamp always stays
the block timestamp. -/
def st_process_log (getEventData : AbiEvent → RawLog → Except String (Option DecodedEvent))
    (blockTsOf : Nat → Int) (abiEvents : List AbiEvent)
    (log : RawLog) : Except PyError CaseRecord :=
  let decoded := if abiEvents.isEmpty then none else decode_log_st getEventData log abiEvents
  let blockTs := blockTsOf log.blockNumber
  match log.topics[0]? with
  | none => .error .indexError
  | some t0 =>
    match decoded with
    | some d =>
      match d.args[0]? with
      | none => .error .indexError
      | some a0 =>
        .ok { case_id := a0, activity := .str d.event_name, timestamp := blockTs }
    | none =>
      .ok { case_id := .str log.address, activity := .str (topicHexStr t0),
            timestamp := blockTs }

/-- The per-log accumulation loop shared by both entry points (for log
in logs: data.append(row)): the first exception aborts the whole run,
otherwise one row per log in order. -/
def runPipeline (step : RawLog → Except PyError CaseRecord) : List RawLog → Except PyError (List CaseRecord)
  | [] => .ok []
  | log :: rest =>
    match step log with
    | .error e => .error e
    | .ok r =>
      match runPipeline step rest with
      | .error e => .error e
      | .ok rs => .ok (r :: rs)

/-- The processmining.py main loop over all fetched logs. -/
def pm_pipeline (keccak : String → String)
    (ethDecode : List String → List Nat → Except String (List Value))
    (blockTsOf : Nat → Int) (contractAddress : String)
    (abiEvents : List AbiEvent) (logs : List RawLog) : Except PyError (List CaseRecord) :=
  runPipeline (pm_process_log keccak ethDecode blockTsOf contractAddress abiEvents) logs

/-- The analyze_contract loop of streamlit_process_mining.py over all
fetched logs. -/
def st_pipeline (getEventData : AbiEvent → RawLog → Except String (Option DecodedEvent))
    (blockTsOf : Nat → Int) (abiEvents : List AbiEvent)
    (logs : List RawLog) : Except PyError (List CaseRecord) :=
  runPipeline (st_process_log getEventData blockTsOf abiEvents) logs

/-- What happens after the event-log table is assembled: a raised
exception, a message printed followed by exit(0), or the table being
handed to the pm4py discovery engine. -/
inductive MineOutcome where
  | raised (msg : String)
  | exitedZero (msg : String)
  | invoked (table : List CaseRecord)
deriving DecidableEq, Repr

/-- True exactly for the outcome that raises an error. -/
def MineOutcome.isFailure : MineOutcome → Bool
  | .raised _ => true
  | _ => false

/-- True exactly for the outcome that invokes the discovery engine. -/
def MineOutcome.invokesEngine : MineOutcome → Bool
  | .invoked _ => true
  | _ => false

/-- The empty-table check of processmining.py lines 191-196: on an
empty DataFrame print the message and exit(0) (a normal, zero-status
termination); otherwise continue into pm4py discovery. -/
def pm_mining_adapter (records : List CaseRecord) : MineOutcome :=
  if records.isEmpty then .exitedZero "No events found for the given contract and range."
  else .invoked records

/-- The empty-table check of streamlit_process_mining.py lines 123-125:
on an empty DataFrame raise ValueError; otherwise continue into pm4py
discovery. -/
def st_mining_adapter (records : List CaseRecord) : MineOutcome :=
  if records.isEmpty then .raised "No events found for the given contract and range."
  else .invoked records

/-- One entry of the KNOWN_EVENTS table of processmining.py lines
22-31: event name, argument types, and the argument indexes to use as
case id, activity and timestamp. -/
structure KnownEvent where
  name : String
  arg_types : List String
  case_id_index : Nat
  activity_index : Nat
  timestamp_index : Nat
deriving DecidableEq, Repr

/-- The KNOWN_EVENTS dictionary of processmining.py lines 22-31, keyed
by the canonical event signature.  It is declared in the source but
never consulted by any code path. -/
def KNOWN_EVENTS : List (String × KnownEvent) :=
  [("StepExecuted(address,string,uint256)",
    { name := "StepExecuted",
      arg_types := ["address", "string", "uint256"],
      case_id_index := 0,
      activity_index := 1,
      timestamp_index := 2 })]

/-- Modelled from the spec: the fixed-table mapping heuristic the spec
attributes to one of the entry points (a table keyed by exact event
signature with explicit argument-index roles: the case_id_index-th
argument as case id, the activity_index-th as activity, the
timestamp_index-th as timestamp when it is an integer).  No such lookup
exists in the source; this definition exists only to compare the two
implemented mappers against the description given in the spec. -/
def knownEventsMapSpec (table : List (String × KnownEvent)) (signature : String)
    (d : DecodedEvent) (blockTs : Int) : Option CaseRecord :=
  match table.lookup signature with
  | none => none
  | some k =>
    match d.args[k.case_id_index]?, d.args[k.activity_index]?, d.args[k.timestamp_index]? with
    | some c, some a, some t =>
      some { case_id := c, activity := a,
             timestamp := match t with | .int n => n | _ => blockTs }
    | _, _, _ => none

/-! Concrete fixtures used by counterexamples and witnesses. -/

/-- A 32-byte topic word consisting of the byte 170 repeated. -/
def tAA : List Nat := List.replicate 32 170

/-- A 32-byte topic word encoding the address 0x00...05 (31 zero bytes
then the byte 5). -/
def tU5 : List Nat := List.replicate 31 0 ++ [5]

/-- A stub hash whose value is the hex of tAA, so that any candidate
signature matches a log whose first topic is tAA. -/
def keccakAA : String → String := fun _ => topicHexStr tAA

/-- A raw log with an empty topic list (a legal anonymous log). -/
def logEmptyTopics : RawLog :=
  { address := "0xA", topics := [], data := [], blockNumber := 3 }

/-- A raw log whose only topic is tAA. -/
def logAA : RawLog :=
  { address := "0xA", topics := [tAA], data := [], blockNumber := 7 }

/-- An event whose declaration lists a non-indexed input before an
indexed one. -/
def eMixedOrder : AbiEvent :=
  { name := "Ev", inputs := [
      { name := "step", type := "string", indexed := false },
      { name := "user", type := "address", indexed := true } ] }

/-- An event whose indexed input precedes its non-indexed input. -/
def eOrdered : AbiEvent :=
  { name := "T", inputs := [
      { name := "user", type := "address", indexed := true },
      { name := "amount", type := "uint256", indexed := false } ] }

/-- An event with a single non-indexed input. -/
def eNonIndexed : AbiEvent :=
  { name := "Transfer", inputs := [
      { name := "value", type := "uint256", indexed := false } ] }

/-- A raw log carrying tAA as signature topic and tU5 as one indexed
argument topic. -/
def logMixedOrder : RawLog :=
  { address := "0xc0ffee", topics := [tAA, tU5], data := [], blockNumber := 7 }

/-- A decoded StepExecuted event with argument names user, step and
timestamp. -/
def dStep : DecodedEvent :=
  { event_name := "StepExecuted",
    args := [.addr "0xabcd", .str "Checkout", .int 1700000000],
    arg_names := ["user", "step", "timestamp"] }

/-- A decoded StepExecuted event whose argument names match none of the
recognized aliases. -/
def dAnon : DecodedEvent :=
  { event_name := "StepExecuted",
    args := [.addr "0xabcd", .str "Checkout", .int 1700000000],
    arg_names := ["a", "b", "c"] }

/-- The StepExecuted ABI declaration used as a candidate definition. -/
def eStepAbi : AbiEvent :=
  { name := "StepExecuted", inputs := [
      { name := "user", type := "address", indexed := true },
      { name := "step", type := "string", indexed := false },
      { name := "timestamp", type := "uint256", indexed := false } ] }

/-! Helper lemmas shared by the claim theorems. -/

/-- When no candidate signature hash equals the first topic, the script
decoder walks the whole list and reports no match without raising. -/
lemma decode_log_no_match (keccak : String → String)
    (ethDecode : List String → List Nat → Except String (List Value))
    (log : RawLog) :
    ∀ (evts : List AbiEvent) (t0 : List Nat), log.topics[0]? = some t0 →
    (∀ e ∈ evts, (topicHexStr t0 == keccak (eventSignature e)) = false) →
    decode_log keccak ethDecode log evts = .ok none := by
  intro evts
  induction evts with
  | nil => intro t0 h0 h1; rfl
  | cons e rest ih =>
    intro t0 h0 h1
    simp only [decode_log, h0, h1 e (List.mem_cons_self e rest), Bool.false_eq_true,
      if_false]
    exact ih t0 h0 (fun x hx => h1 x (List.mem_cons_of_mem e hx))

/-- A successful run of the decoded-event mapper determines each field
from the three alias lookups. -/
lemma pm_map_decoded_ok (c : String) (bts : Int) (d : DecodedEvent) (r : CaseRecord)
    (h : pm_map_decoded c bts d = .ok r) :
    ∃ cv av tv, argLookup d.arg_names d.args "user" (.str c) = .ok cv ∧
      argLookup d.arg_names d.args "step" (.str d.event_name) = .ok av ∧
      argLookup d.arg_names d.args "timestamp" (.int bts) = .ok tv ∧
      r = { case_id := cv, activity := av,
            timestamp := match tv with | .int n => n | _ => bts } := by
  unfold pm_map_decoded at h
  cases hu : argLookup d.arg_names d.args "user" (.str c) with
  | error e => rw [hu] at h; exact Except.noConfusion h
  | ok cv =>
    rw [hu] at h
    cases hs : argLookup d.arg_names d.args "step" (.str d.event_name) with
    | error e => rw [hs] at h; exact Except.noConfusion h
    | ok av =>
      rw [hs] at h
      cases ht : argLookup d.arg_names d.args "timestamp" (.int bts) with
      | error e => rw [ht] at h; exact Except.noConfusion h
      | ok tv =>
        rw [ht] at h
        injection h with h2
        exact ⟨cv, av, tv, rfl, rfl, rfl, h2.symm⟩

/-- A successful pipeline run yields one row per log, in order. -/
lemma runPipeline_ok (step : RawLog → Except PyError CaseRecord) :
    ∀ (logs : List RawLog) (table : List CaseRecord),
    runPipeline step logs = .ok table →
    table.length = logs.length ∧
    ∀ (i : Nat) (h1 : i < logs.length) (h2 : i < table.length),
      step (logs.get ⟨i, h1⟩) = .ok (table.get ⟨i, h2⟩) := by
  intro logs
  induction logs with
  | nil =>
    intro table h
    injection h with h2
    subst h2
    exact ⟨rfl, fun i h1 _ => absurd h1 (Nat.not_lt_zero i)⟩
  | cons log rest ih =>
    intro table h
    unfold runPipeline at h
    cases hstep : step log with
    | error e => rw [hstep] at h; exact Except.noConfusion h
    | ok r =>
      rw [hstep] at h
      cases hrest : runPipeline step rest with
      | error e => rw [hrest] at h; exact Except.noConfusion h
      | ok rs =>
        rw [hrest] at h
        injection h with h2
        subst h2
        obtain ⟨hlen, hpt⟩ := ih rs hrest
        refine ⟨by simp [hlen], ?_⟩
        intro i h1 h2
        cases i with
        | zero => simpa using hstep
        | succ j =>
          have hj1 : j < rest.length := Nat.lt_of_succ_lt_succ h1
          have hj2 : j < rs.length := Nat.lt_of_succ_lt_succ h2
          simpa using hpt j hj1 hj2

/-! Claim theorems. -/

/-- C8: the contract metadata fetcher returns None (no ABI known) for
every response whose status field differs from the string 1, without
raising, and returns the ABI string from the result field exactly when
the status is 1. -/
theorem claim_C8_abi_fetch (response : ApiResponse) :
    (response.status ≠ "1" → get_contract_abi response = none) ∧
    (response.status = "1" → get_contract_abi response = some response.result) := by
  refine ⟨fun h => ?_, fun h => ?_⟩
  · simp [get_contract_abi, h]
  · simp [get_contract_abi, h]

/-- Witness for C8 at two concrete responses: a rejected status 0
response yields None, a status 1 response yields its result string. -/
theorem claim_C8_witness :
    get_contract_abi { status := "0", result := "x" } = none ∧
    get_contract_abi { status := "1", result := "abiJson" } = some "abiJson" :=
  ⟨(claim_C8_abi_fetch { status := "0", result := "x" }).1 (by decide),
   (claim_C8_abi_fetch { status := "1", result := "abiJson" }).2 rfl⟩

/-- C6 counterexample: on an empty table the script entry point of
processmining.py does not fail with an error at all: it prints the
message and terminates via exit(0), a zero-status exit. -/
theorem claim_C6_counterexample :
    pm_mining_adapter [] =
      MineOutcome.exitedZero "No events found for the given contract and range." ∧
    MineOutcome.isFailure (pm_mining_adapter []) = false :=
  ⟨rfl, rfl⟩

/-- C6 amended: on an empty table the streamlit adapter raises the
EmptyLogError (a ValueError with the descriptive message) while the
script prints the same message and exits with status zero; neither
entry point invokes the discovery engine. -/
theorem claim_C6_amended :
    st_mining_adapter [] =
      MineOutcome.raised "No events found for the given contract and range." ∧
    MineOutcome.invokesEngine (st_mining_adapter []) = false ∧
    MineOutcome.invokesEngine (pm_mining_adapter []) = false :=
  ⟨rfl, rfl, rfl⟩

/-- C9 counterexample: on a decoded event whose signature is the very
key of KNOWN_EVENTS, neither entry point produces the record the
fixed-table heuristic with argument-index roles would produce: the
script mapper keeps its name-matching defaults and the streamlit
mapper uses first-argument, event-name and block-timestamp, both
differing from the table-prescribed record, so no entry point consults
the table. -/
theorem claim_C9_counterexample :
    knownEventsMapSpec KNOWN_EVENTS "StepExecuted(address,string,uint256)" dAnon 999 =
      some { case_id := .addr "0xabcd", activity := .str "Checkout",
             timestamp := 1700000000 } ∧
    pm_map_decoded "0xCONTRACT" 999 dAnon =
      .ok { case_id := .str "0xCONTRACT", activity := .str "StepExecuted",
            timestamp := 999 } ∧
    st_process_log (fun _ _ => .ok (some dAnon)) (fun _ => 999) [eStepAbi] logAA =
      .ok { case_id := .addr "0xabcd", activity := .str "StepExecuted",
            timestamp := 999 } ∧
    ({ case_id := Value.str "0xCONTRACT", activity := Value.str "StepExecuted",
       timestamp := 999 } : CaseRecord) ≠
      { case_id := .addr "0xabcd", activity := .str "Checkout",
        timestamp := 1700000000 } ∧
    ({ case_id := Value.addr "0xabcd", activity := Value.str "StepExecuted",
       timestamp := 999 } : CaseRecord) ≠
      { case_id := .addr "0xabcd", activity := .str "Checkout",
        timestamp := 1700000000 } :=
  ⟨rfl, rfl, rfl, by decide, by decide⟩

/-- C9 amended: the two entry points do implement divergent,
non-equivalent mappings — the script by argument-name matching, the
streamlit app by first-argument, event-name and block-timestamp — and
on the same decoded StepExecuted event they produce different records
(the KNOWN_EVENTS table plays no role in either). -/
theorem claim_C9_amended :
    pm_map_decoded "0xCONTRACT" 999 dStep =
      .ok { case_id := .addr "0xabcd", activity := .str "Checkout",
            timestamp := 1700000000 } ∧
    st_process_log (fun _ _ => .ok (some dStep)) (fun _ => 999) [eStepAbi] logAA =
      .ok { case_id := .addr "0xabcd", activity := .str "StepExecuted",
            timestamp := 999 } ∧
    ({ case_id := Value.addr "0xabcd", activity := Value.str "Checkout",
       timestamp := 1700000000 } : CaseRecord) ≠
      { case_id := .addr "0xabcd", activity := .str "StepExecuted",
        timestamp := 999 } :=
  ⟨rfl, rfl, by decide⟩

/-- C10: in the streamlit entry point, whenever decoding succeeds the
resulting record is always first-decoded-argument, event-name and
block-timestamp, whatever the argument names are — no timestamp or
step override exists. -/
theorem claim_C10_streamlit_mapping
    (getEventData : AbiEvent → RawLog → Except String (Option DecodedEvent))
    (blockTsOf : Nat → Int) (abiEvents : List AbiEvent) (log : RawLog)
    (t0 : List Nat) (d : DecodedEvent) (a0 : Value) (restArgs : List Value)
    (hne : abiEvents.isEmpty = false)
    (hdec : decode_log_st getEventData log abiEvents = some d)
    (htop : log.topics[0]? = some t0)
    (hargs : d.args = a0 :: restArgs) :
    st_process_log getEventData blockTsOf abiEvents log =
      .ok { case_id := a0, activity := .str d.event_name,
            timestamp := blockTsOf log.blockNumber } := by
  simp only [st_process_log, hne, Bool.false_eq_true, if_false, hdec, htop, hargs,
    List.getElem?_cons_zero]

/-- Witness for C10: a concrete decoded StepExecuted event, whose
argument names include step and timestamp, still maps to first
argument, event name and block timestamp. -/
theorem claim_C10_witness :
    st_process_log (fun _ _ => .ok (some dStep)) (fun _ => 424242) [eStepAbi] logAA =
      .ok { case_id := .addr "0xabcd", activity := .str "StepExecuted",
            timestamp := 424242 } :=
  claim_C10_streamlit_mapping (fun _ _ => .ok (some dStep)) (fun _ => 424242)
    [eStepAbi] logAA tAA dStep (.addr "0xabcd")
    [.str "Checkout", .int 1700000000] rfl rfl rfl rfl

/-- C4: in the name-matching mapper of processmining.py, whenever the
argument-name list contains an argument named user and the mapping
completes, the case id of the resulting record equals the decoded
value stored at the position of that name, overriding the
contract-address default. -/
theorem claim_C4_user_override (c : String) (bts : Int) (d : DecodedEvent)
    (v : Value) (r : CaseRecord)
    (hmem : d.arg_names.contains "user" = true)
    (hval : d.args[d.arg_names.indexOf "user"]? = some v)
    (hok : pm_map_decoded c bts d = .ok r) :
    r.case_id = v := by
  obtain ⟨cv, av, tv, hu, _, _, hr⟩ := pm_map_decoded_ok c bts d r hok
  have hmem2 : "user" ∈ d.arg_names := by simpa using hmem
  have : argLookup d.arg_names d.args "user" (.str c) = .ok v := by
    simp [argLookup, hmem2, hval]
  rw [this] at hu
  injection hu with h2
  rw [hr, h2]

/-- Witness for C4: the concrete StepExecuted decoded event maps to a
record whose case id is the decoded user address, not the contract
address. -/
theorem claim_C4_witness :
    pm_map_decoded "0xC" 999 dStep =
      .ok { case_id := .addr "0xabcd", activity := .str "Checkout",
            timestamp := 1700000000 } ∧
    ({ case_id := Value.addr "0xabcd", activity := Value.str "Checkout",
       timestamp := 1700000000 } : CaseRecord).case_id = Value.addr "0xabcd" :=
  ⟨rfl, claim_C4_user_override "0xC" 999 dStep (Value.addr "0xabcd")
    { case_id := .addr "0xabcd", activity := .str "Checkout",
      timestamp := 1700000000 } (by decide) (by decide) rfl⟩

/-- C5: in the name-matching mapper of processmining.py, whenever the
argument-name list contains an argument named timestamp and the
mapping completes, an integer decoded value becomes the record
timestamp (epoch seconds) and a non-integer decoded value is ignored,
leaving the block timestamp. -/
theorem claim_C5_timestamp_override (c : String) (bts : Int) (d : DecodedEvent)
    (v : Value) (r : CaseRecord)
    (hmem : d.arg_names.contains "timestamp" = true)
    (hval : d.args[d.arg_names.indexOf "timestamp"]? = some v)
    (hok : pm_map_decoded c bts d = .ok r) :
    (∀ n : Int, v = Value.int n → r.timestamp = n) ∧
    ((∀ n : Int, v ≠ Value.int n) → r.timestamp = bts) := by
  obtain ⟨cv, av, tv, _, _, ht, hr⟩ := pm_map_decoded_ok c bts d r hok
  have hmem2 : "timestamp" ∈ d.arg_names := by simpa using hmem
  have : argLookup d.arg_names d.args "timestamp" (.int bts) = .ok v := by
    simp [argLookup, hmem2, hval]
  rw [this] at ht
  injection ht with h2
  subst h2
  constructor
  · intro n hn
    rw [hr, hn]
  · intro hn
    rw [hr]
    cases v with
    | int n => exact absurd rfl (hn n)
    | addr s => rfl
    | str s => rfl
    | bytes b => rfl

/-- A decoded event whose timestamp-named argument holds a non-integer
value. -/
def dBadTs : DecodedEvent :=
  { event_name := "StepExecuted",
    args := [.addr "0xabcd", .str "Checkout", .str "late"],
    arg_names := ["user", "step", "timestamp"] }

/-- Witness for C5 at two concrete decoded events: an integer-valued
timestamp argument becomes the record timestamp, a string-valued one
is ignored and the block timestamp 555 is kept. -/
theorem claim_C5_witness :
    pm_map_decoded "0xD" 555 dStep =
      .ok { case_id := .addr "0xabcd", activity := .str "Checkout",
            timestamp := 1700000000 } ∧
    ({ case_id := Value.addr "0xabcd", activity := Value.str "Checkout",
       timestamp := 1700000000 } : CaseRecord).timestamp = 1700000000 ∧
    pm_map_decoded "0xD" 555 dBadTs =
      .ok { case_id := .addr "0xabcd", activity := .str "Checkout",
            timestamp := 555 } ∧
    ({ case_id := Value.addr "0xabcd", activity := Value.str "Checkout",
       timestamp := 555 } : CaseRecord).timestamp = 555 :=
  ⟨rfl,
   (claim_C5_timestamp_override "0xD" 555 dStep (.int 1700000000)
     { case_id := .addr "0xabcd", activity := .str "Checkout",
       timestamp := 1700000000 } (by decide) (by decide) rfl).1 1700000000 rfl,
   rfl,
   (claim_C5_timestamp_override "0xD" 555 dBadTs (.str "late")
     { case_id := .addr "0xabcd", activity := .str "Checkout",
       timestamp := 555 } (by decide) (by decide) rfl).2
     (fun n h => Value.noConfusion h)⟩

/-- C1 counterexample: on a log with an empty topic list and no
matching definition, both fallback mappings raise IndexError instead
of producing a record with the sentinel activity unknown — no such
sentinel exists in the source. -/
theorem claim_C1_counterexample :
    pm_process_log (fun s => s) (fun _ _ => .error "x") (fun n => (n : Int)) "0xC"
      [] logEmptyTopics = .error PyError.indexError ∧
    st_process_log (fun _ _ => .ok none) (fun n => (n : Int)) [] logEmptyTopics =
      .error PyError.indexError :=
  ⟨rfl, rfl⟩

/-- C1 amended: for a log with at least one topic that no definition
matches (in particular with an empty definition list, the unavailable-
ABI case), both entry points produce the fallback record with the log
address as case id, the hex string of the first topic as activity and
the block timestamp — only the empty-topic case raises. -/
theorem claim_C1_amended :
    (∀ (keccak : String → String)
       (ethDecode : List String → List Nat → Except String (List Value))
       (blockTsOf : Nat → Int) (c : String) (abiEvents : List AbiEvent)
       (log : RawLog) (t0 : List Nat) (restTopics : List (List Nat)),
       log.topics = t0 :: restTopics →
       (∀ e ∈ abiEvents, (topicHexStr t0 == keccak (eventSignature e)) = false) →
       pm_process_log keccak ethDecode blockTsOf c abiEvents log =
         .ok { case_id := .str log.address, activity := .str (topicHexStr t0),
               timestamp := blockTsOf log.blockNumber }) ∧
    (∀ (getEventData : AbiEvent → RawLog → Except String (Option DecodedEvent))
       (blockTsOf : Nat → Int) (abiEvents : List AbiEvent)
       (log : RawLog) (t0 : List Nat) (restTopics : List (List Nat)),
       log.topics = t0 :: restTopics →
       decode_log_st getEventData log abiEvents = none →
       st_process_log getEventData blockTsOf abiEvents log =
         .ok { case_id := .str log.address, activity := .str (topicHexStr t0),
               timestamp := blockTsOf log.blockNumber }) := by
  constructor
  · intro keccak ethDecode blockTsOf c abiEvents log t0 restTopics htop hnm
    have h0 : log.topics[0]? = some t0 := by rw [htop]; exact List.getElem?_cons_zero
    cases abiEvents with
    | nil => simp [pm_process_log, h0]
    | cons e es =>
      have hd := decode_log_no_match keccak ethDecode log (e :: es) t0 h0 hnm
      simp [pm_process_log, hd, h0]
  · intro getEventData blockTsOf abiEvents log t0 restTopics htop hdec
    have h0 : log.topics[0]? = some t0 := by rw [htop]; exact List.getElem?_cons_zero
    simp [st_process_log, h0, hdec, ite_self]

/-- Witness for C1: with an empty definition list (unavailable ABI)
both entry points map the concrete one-topic log to the record made of
its address, the hex of its only topic, and its block timestamp. -/
theorem claim_C1_witness :
    pm_process_log (fun s => s) (fun _ _ => .error "x") (fun n => (n : Int)) "0xC"
      [] logAA =
      .ok { case_id := .str "0xA", activity := .str (topicHexStr tAA),
            timestamp := 7 } ∧
    st_process_log (fun _ _ => .ok none) (fun n => (n : Int)) [] logAA =
      .ok { case_id := .str "0xA", activity := .str (topicHexStr tAA),
            timestamp := 7 } ∧
    topicHexStr tAA =
      "0xaaaaaaaaaaaaaaaaaaaaaaaaaaaaaaaaaaaaaaaaaaaaaaaaaaaaaaaaaaaaaaaa" :=
  ⟨claim_C1_amended.1 (fun s => s) (fun _ _ => .error "x") (fun n => (n : Int))
     "0xC" [] logAA tAA [] rfl (by simp),
   claim_C1_amended.2 (fun _ _ => .ok none) (fun n => (n : Int)) [] logAA tAA []
     rfl rfl,
   rfl⟩

/-- C2 counterexample: in the processmining.py decoder an eth_abi
decoding error on the first signature-matched definition is not
recovered: it propagates out of decode_log, and the remaining
candidate definition is never tried. -/
theorem claim_C2_counterexample :
    decode_log keccakAA (fun _ _ => .error "insufficient data") logAA
      [eNonIndexed, eStepAbi] = .error (PyError.decodingError "insufficient data") :=
  rfl

/-- C2 amended: in the streamlit decoder every exception from a
candidate definition is swallowed and counted as no match: decoding
continues exactly as if the failing candidate were absent, and the
decoder itself returns an optional result, never an exception. -/
theorem claim_C2_amended
    (getEventData : AbiEvent → RawLog → Except String (Option DecodedEvent))
    (log : RawLog) (e : AbiEvent) (rest : List AbiEvent) (m : String)
    (herr : getEventData e log = .error m) :
    decode_log_st getEventData log (e :: rest) = decode_log_st getEventData log rest := by
  simp only [decode_log_st, herr]

/-- Witness for C2: a helper that always raises makes the streamlit
decoder skip the candidate and fall through to the empty list, giving
no match. -/
theorem claim_C2_witness :
    decode_log_st (fun _ _ => .error "boom") logAA [eNonIndexed] =
      decode_log_st (fun _ _ => .error "boom") logAA [] :=
  claim_C2_amended (fun _ _ => .error "boom") logAA eNonIndexed [] "boom" rfl

/-- C3 counterexample: for an event declaring a non-indexed input
before an indexed one, the decoder output names stay in declaration
order (step then user) while the values are in indexed-first split
order, so the first name labels the indexed address value and the
name list is not the split-order list. -/
theorem claim_C3_counterexample :
    decode_log keccakAA (fun _ _ => .ok [.str "Checkout"]) logMixedOrder
      [eMixedOrder] =
      .ok (some { event_name := "Ev",
                  args := [Value.addr "0x0000000000000000000000000000000000000005",
                           Value.str "Checkout"],
                  arg_names := ["step", "user"] }) ∧
    ((eMixedOrder.inputs.filter (fun i => i.indexed)) ++
      eMixedOrder.inputs.filter (fun i => !i.indexed)).map (fun i => i.name) =
      ["user", "step"] ∧
    (["step", "user"] : List String) ≠ ["user", "step"] :=
  ⟨rfl, rfl, by decide⟩

/-- C3 amended: on a successful match the argument values are the
indexed-decoded values followed by the non-indexed-decoded values, but
the name list is taken in plain declaration order; the two lists are
parallel in the split sense exactly when the declaration already lists
every indexed input before every non-indexed one. -/
theorem claim_C3_amended (keccak : String → String)
    (ethDecode : List String → List Nat → Except String (List Value))
    (log : RawLog) (e : AbiEvent) (rest : List AbiEvent) (t0 : List Nat)
    (di dn : List Value)
    (h0 : log.topics[0]? = some t0)
    (h1 : (topicHexStr t0 == keccak (eventSignature e)) = true)
    (h2 : decodeIndexedLoop log.topics (e.inputs.filter (fun i => i.indexed)) 1 = .ok di)
    (h3 : (if (e.inputs.filter (fun i => !i.indexed)).isEmpty then Except.ok []
           else match ethDecode ((e.inputs.filter (fun i => !i.indexed)).map (fun i => i.type)) log.data with
                | .ok vs => Except.ok vs
                | .error m => Except.error (PyError.decodingError m)) = .ok dn) :
    decode_log keccak ethDecode log (e :: rest) =
      .ok (some { event_name := e.name, args := di ++ dn,
                  arg_names := e.inputs.map (fun i => i.name) }) ∧
    (e.inputs.filter (fun i => i.indexed) ++ e.inputs.filter (fun i => !i.indexed) =
        e.inputs →
      e.inputs.map (fun i => i.name) =
        (e.inputs.filter (fun i => i.indexed)).map (fun i => i.name) ++
        (e.inputs.filter (fun i => !i.indexed)).map (fun i => i.name)) := by
  constructor
  · simp only [decode_log, h0, h1, if_true, h2, h3]
  · intro hsplit
    rw [← List.map_append, hsplit]

/-- Witness for C3: for an event declaring the indexed input first,
the decoded values and the declaration-order names are parallel. -/
theorem claim_C3_witness :
    decode_log keccakAA (fun _ _ => .ok [.int 42]) logMixedOrder [eOrdered] =
      .ok (some { event_name := "T",
                  args := [Value.addr "0x0000000000000000000000000000000000000005",
                           Value.int 42],
                  arg_names := ["user", "amount"] }) ∧
    eOrdered.inputs.map (fun i => i.name) =
      (eOrdered.inputs.filter (fun i => i.indexed)).map (fun i => i.name) ++
      (eOrdered.inputs.filter (fun i => !i.indexed)).map (fun i => i.name) :=
  ⟨(claim_C3_amended keccakAA (fun _ _ => .ok [.int 42]) logMixedOrder eOrdered []
      tAA [Value.addr "0x0000000000000000000000000000000000000005"] [Value.int 42]
      rfl rfl rfl rfl).1,
   (claim_C3_amended keccakAA (fun _ _ => .ok [.int 42]) logMixedOrder eOrdered []
      tAA [Value.addr "0x0000000000000000000000000000000000000005"] [Value.int 42]
      rfl rfl rfl rfl).2 rfl⟩

/-- C7 counterexample: a log list containing one empty-topic log makes
both pipelines raise IndexError, producing no table at all, so not
every list of retrieved logs yields one record per log. -/
theorem claim_C7_counterexample :
    pm_pipeline (fun s => s) (fun _ _ => .error "x") (fun n => (n : Int)) "0xC" []
      [logEmptyTopics] = .error PyError.indexError ∧
    st_pipeline (fun _ _ => .ok none) (fun n => (n : Int)) [] [logEmptyTopics] =
      .error PyError.indexError :=
  ⟨rfl, rfl⟩

/-- C7 amended: whenever a pipeline run completes without raising, its
table has exactly one record per processed log, in order, each record
being the mapping of the log at the same position; a raised exception
aborts the whole run instead of dropping single records. -/
theorem claim_C7_amended :
    (∀ (keccak : String → String)
       (ethDecode : List String → List Nat → Except String (List Value))
       (blockTsOf : Nat → Int) (c : String) (abiEvents : List AbiEvent)
       (logs : List RawLog) (table : List CaseRecord),
       pm_pipeline keccak ethDecode blockTsOf c abiEvents logs = .ok table →
       table.length = logs.length ∧
       ∀ (i : Nat) (hi : i < logs.length) (ht : i < table.length),
         pm_process_log keccak ethDecode blockTsOf c abiEvents
           (logs.get ⟨i, hi⟩) = .ok (table.get ⟨i, ht⟩)) ∧
    (∀ (getEventData : AbiEvent → RawLog → Except String (Option DecodedEvent))
       (blockTsOf : Nat → Int) (abiEvents : List AbiEvent)
       (logs : List RawLog) (table : List CaseRecord),
       st_pipeline getEventData blockTsOf abiEvents logs = .ok table →
       table.length = logs.length ∧
       ∀ (i : Nat) (hi : i < logs.length) (ht : i < table.length),
         st_process_log getEventData blockTsOf abiEvents
           (logs.get ⟨i, hi⟩) = .ok (table.get ⟨i, ht⟩)) := by
  constructor
  · intro keccak ethDecode blockTsOf c abiEvents logs table h
    exact runPipeline_ok _ logs table h
  · intro getEventData blockTsOf abiEvents logs table h
    exact runPipeline_ok _ logs table h

/-- Witness for C7: a successful one-log run produces a one-row table
whose length equals the number of logs. -/
theorem claim_C7_witness :
    pm_pipeline (fun s => s) (fun _ _ => .error "x") (fun n => (n : Int)) "0xC" []
      [logAA] =
      .ok [{ case_id := .str "0xA", activity := .str (topicHexStr tAA),
             timestamp := 7 }] ∧
    ([{ case_id := Value.str "0xA", activity := Value.str (topicHexStr tAA),
        timestamp := 7 }] : List CaseRecord).length = [logAA].length :=
  ⟨rfl,
   (claim_C7_amended.1 (fun s => s) (fun _ _ => .error "x") (fun n => (n : Int))
     "0xC" []
     [logAA]
     [{ case_id := .str "0xA", activity := .str (topicHexStr tAA), timestamp := 7 }]
     rfl).1⟩
